import Mathlib

/-!
Verification of the GTP connection module (`gtp_connection.py`).

The protocol session and coordinate codec are embedded shallowly.  The board
and engine are external collaborators (spec §1, §6); the board is modelled as
a structure of the collaborator operations the session consumes.  Machine
integers in the source are small non-negative counters and indices, modelled
as `Nat` (rows parsed from text pass through Python `int`, modelled as `Int`
until the positivity check).  Python exceptions are modelled with
`Except String`, carrying `str(e)`.
-/

deriving instance DecidableEq for Except

namespace Gtp

/-- Modelled from the spec: color codes from the external `board_util` module
(not under `src/`).  Spec §4.2 fixes Black = 1 ("current player is Black-coded
value 1"); Empty must be 0 because `occupied_checker` tests `get_color != 0`
against "target point must currently be empty"; White and Border are the two
remaining distinct codes of the {Black, White, Empty, Border} enumeration. -/
def BLACK : Nat := 1

/-- Modelled from the spec: see `BLACK`. -/
def WHITE : Nat := 2

/-- Modelled from the spec: see `BLACK`. -/
def EMPTY : Nat := 0

/-- Modelled from the spec: see `BLACK`. -/
def BORDER : Nat := 3

/-- Modelled from the spec: `board_max is a fixed upper bound (25)` (§4.1). -/
def MAXSIZE : Nat := 25

/-- A response frame: `respond` writes `= <payload>\n\n`, `error` writes
`? <msg>\n\n` (source lines 138-146). -/
inductive Frame
  | success (payload : String)
  | err (msg : String)
  deriving DecidableEq, Repr

/-- Render a frame exactly as it is written to the transport. -/
def Frame.render : Frame → String
  | .success p => "= " ++ p ++ "\n\n"
  | .err m => "? " ++ m ++ "\n\n"

/-- The observable effect of running one handler or one command line:
the protocol frames written to stdout, the messages written to the debug
stream (stderr), the `play_move(point, color)` calls made on the live board
(the only board-mutating call any modelled handler performs), and the
exception propagated to the caller, if any. -/
structure Outcome where
  frames : List Frame
  debugs : List String
  plays : List (Nat × Nat)
  exc : Option String
  deriving DecidableEq, Repr

/-- The outcome of a silently ignored line. -/
def noOutcome : Outcome := ⟨[], [], [], none⟩

/-- The board collaborator (spec §6), exposed through the operations the
session consumes.  `get_empty_points` is the current enumeration of empty
points; `play_move_empties p c` is the enumeration `get_empty_points()`
returns after `play_move(p, c)` has been applied to a copy of the board;
`play_move_applied` is `play_move`'s return flag; `play_move_render` is the
2-D textual rendering of the board after the move (used only inside a debug
message). -/
structure Board where
  size : Nat
  current_player : Nat
  get_color : Nat → Nat
  get_empty_points : List Nat
  is_legal : Nat → Nat → Bool
  check_suicide : Nat → Nat → Bool
  play_move_applied : Nat → Nat → Bool
  play_move_empties : Nat → Nat → List Nat
  play_move_render : Nat → Nat → String

/-- Coherence of the board collaborator: a point has the Empty color code
exactly when it appears in the empty-point enumeration. -/
def Board.WF (bd : Board) : Prop :=
  ∀ p, bd.get_color p = EMPTY ↔ p ∈ bd.get_empty_points

/-! ### Coordinate codec (source lines 438-500) -/

/-- The Pass sentinel is modelled by `none`; a board point is `some point`.
`point_to_coord` (source lines 438-448): `divmod(point, boardsize + 1)`. -/
def point_to_coord : Option Nat → Nat → Option (Nat × Nat)
  | none, _ => none
  | some point, boardsize => some (point / (boardsize + 1), point % (boardsize + 1))

/-- `column_letters` of `format_point`: the 25-letter alphabet skipping I. -/
def column_letters : List Char := "ABCDEFGHJKLMNOPQRSTUVWXYZ".data

/-- `format_point` (source lines 451-462).  `none` is the Pass sentinel.
A bare `raise ValueError` is modelled as `.error ""` (`str(ValueError())`
is the empty string).  Python's negative indexing makes
`column_letters[col - 1]` wrap to the last letter when `col = 0`. -/
def format_point : Option (Nat × Nat) → Except String String
  | none => .ok "PASS"
  | some (row, col) =>
    if ¬(row < MAXSIZE ∧ col < MAXSIZE) then .error ""
    else if col = 0 then .ok (String.mk [column_letters.getD 24 'A'] ++ Nat.repr row)
    else .ok (String.mk [column_letters.getD (col - 1) 'A'] ++ Nat.repr row)

/-- Python `str.lower()`, restricted to the ASCII range: lowercase each
character. -/
def pyLower (s : String) : String := String.mk (s.data.map Char.toLower)

/-- Python `str.upper()`, restricted to the ASCII range: uppercase each
character. -/
def pyUpper (s : String) : String := String.mk (s.data.map Char.toUpper)

/-- Python whitespace characters (`str.split()`, `int()` stripping,
`lstrip()`), restricted to the ASCII range. -/
def isPySpace (c : Char) : Bool :=
  c == ' ' || c == '\t' || c == '\n' || c == '\r' || c == '\x0b' || c == '\x0c'

/-- Tail of a Python decimal integer literal: digits separated by single
underscores (`1_0` is accepted, `1__0`, `1_` are not). -/
def pyDigitsRest : List Char → Bool
  | [] => true
  | '_' :: c :: rest => c.isDigit && pyDigitsRest rest
  | c :: rest => c.isDigit && pyDigitsRest rest

/-- A non-empty Python digit run with optional single underscores. -/
def pyIntDigits : List Char → Bool
  | [] => false
  | c :: rest => c.isDigit && pyDigitsRest rest

/-- Numeric value of a digit run, ignoring underscores. -/
def digitsVal (l : List Char) : Nat :=
  (l.filter (fun c => c != '_')).foldl (fun a c => 10 * a + (c.toNat - '0'.toNat)) 0

/-- Python `int(s)` on a base-10 string: strip surrounding whitespace, accept
an optional single sign, then a digit run with optional underscores;
`none` models the `ValueError`. -/
def pyIntOfChars (l : List Char) : Option Int :=
  let t := ((l.dropWhile isPySpace).reverse.dropWhile isPySpace).reverse
  match t with
  | '+' :: rest => if pyIntDigits rest then some ((digitsVal rest : Nat) : Int) else none
  | '-' :: rest => if pyIntDigits rest then some (-((digitsVal rest : Nat) : Int)) else none
  | rest => if pyIntDigits rest then some ((digitsVal rest : Nat) : Int) else none

/-- Python `int(s)` for a string. -/
def pyInt (s : String) : Option Int := pyIntOfChars s.data

/-- Result of `move_to_coord`: Python `False` (`invalid`), the Pass sentinel
(`passMv`), or a `(row, col)` pair (both in `1 .. board_size` on return). -/
inductive PParse
  | invalid
  | passMv
  | rc (row col : Nat)
  deriving DecidableEq, Repr

/-- Column number of a lowercase letter as computed by `move_to_coord`:
`ord(c) - ord('a')`, plus one for letters below `i`. -/
def colOf (c : Char) : Nat :=
  c.toNat - 'a'.toNat + (if c < 'i' then 1 else 0)

/-- `move_to_coord` (source lines 465-494).  The `board_size` range check is
outside the `try` block, so its `ValueError` escapes (`.error`); every parse
failure inside the `try` is converted to `return False` (`.ok .invalid`). -/
def move_to_coord (point_str : String) (board_size : Nat) : Except String PParse :=
  if ¬(2 ≤ board_size ∧ board_size ≤ MAXSIZE) then .error "board_size out of range"
  else
    let s := pyLower point_str
    if s = "pass" then .ok .passMv
    else
      match s.data with
      | [] => .ok .invalid
      | col_c :: restChars =>
        if ¬('a' ≤ col_c ∧ col_c ≤ 'z') ∨ col_c = 'i' then .ok .invalid
        else
          match pyIntOfChars restChars with
          | none => .ok .invalid
          | some row =>
            if row < 1 then .ok .invalid
            else if ¬(colOf col_c ≤ board_size ∧ row ≤ (board_size : Int)) then .ok .invalid
            else .ok (.rc row.toNat (colOf col_c))

/-- Modelled from the spec: `coord_to_point` from the external `board_util`
module (not under `src/`), the inverse of `point_to_coord`'s
`divmod(point, boardsize + 1)` (§4.1: the stride is `board_size + 1`):
`point = (boardsize + 1) * row + col`. -/
def coord_to_point (row col boardsize : Nat) : Nat :=
  (boardsize + 1) * row + col

/-- `color_to_int` (source lines 497-500).  A missing key raises `KeyError`,
whose `str` is the quoted key. -/
def color_to_int (c : String) : Except String Nat :=
  if c = "b" then .ok BLACK
  else if c = "w" then .ok WHITE
  else if c = "e" then .ok EMPTY
  else if c = "BORDER" then .ok BORDER
  else .error ("'" ++ c ++ "'")

/-! ### Line parsing and dispatch (source lines 40-130) -/

/-- The command table's keys, in insertion order (source lines 40-60). -/
def commandNames : List String :=
  ["protocol_version", "quit", "name", "boardsize", "showboard", "clear_board",
   "komi", "version", "known_command", "genmove", "list_commands", "play",
   "gogui-rules_legal_moves", "gogui-rules_final_result",
   "gogui-rules_side_to_move", "gogui-rules_game_id", "gogui-rules_board",
   "gogui-analyze_commands", "gogui-rules_board_size"]

/-- The arity table `self.argmap` (source lines 65-72):
command name, required argument count, usage-error message. -/
def argmap : List (String × Nat × String) :=
  [("boardsize", (1, "Usage: boardsize INT")),
   ("komi", (1, "Usage: komi FLOAT")),
   ("known_command", (1, "Usage: known_command CMD_NAME")),
   ("genmove", (1, "Usage: genmove \x7bw,b\x7d")),
   ("play", (2, "Usage: play \x7bb,w\x7d MOVE")),
   ("legal_moves", (1, "Usage: legal_moves \x7bw,b\x7d"))]

/-- `has_arg_error` (source lines 122-130), together with the `error(...)`
frame it writes on a mismatch before returning `True`. -/
def has_arg_error_result (cmd : String) (argnum : Nat) : Bool × List Frame :=
  match argmap.lookup cmd with
  | some p => if p.1 ≠ argnum then (true, [.err p.2]) else (false, [])
  | none => (false, [])

/-- The Boolean result of `has_arg_error`. -/
def has_arg_error (cmd : String) (argnum : Nat) : Bool :=
  (has_arg_error_result cmd argnum).1

/-- Python `command.strip(" \r\t")`: drop these three chars from both ends. -/
def stripCmdEnds (s : List Char) : List Char :=
  ((s.dropWhile (fun c => c == ' ' || c == '\r' || c == '\t')).reverse.dropWhile
    (fun c => c == ' ' || c == '\r' || c == '\t')).reverse

/-- Accumulator for `pySplitWs`. -/
def splitWsAux : List Char → List Char → List (List Char)
  | [], acc => if acc.isEmpty then [] else [acc.reverse]
  | c :: rest, acc =>
    if isPySpace c then
      if acc.isEmpty then splitWsAux rest [] else acc.reverse :: splitWsAux rest []
    else splitWsAux rest (c :: acc)

/-- Python `str.split()`: split on runs of whitespace, dropping empty tokens. -/
def pySplitWs (l : List Char) : List (List Char) := splitWsAux l []

/-- The line-parsing half of `get_cmd` (source lines 94-106): ignore
whitespace-only lines and `#` comments, strip a leading digit run (a
regression-test id, `re.sub("^\d+", "", command).lstrip()`), tokenize, and
return the command name and arguments, or `none` for an ignored line. -/
def parse_line (command : String) : Option (String × List String) :=
  let cs := command.data
  if (stripCmdEnds cs).length = 0 then none
  else if cs.headD ' ' = '#' then none
  else
    let cs2 := if (cs.headD ' ').isDigit
      then (cs.dropWhile Char.isDigit).dropWhile (fun c => isPySpace c)
      else cs
    match pySplitWs cs2 with
    | [] => none
    | nm :: args => some (String.mk nm, args.map String.mk)

/-- The debug message of the handler-exception path:
`"Error executing command {str(e)}\n"`. -/
def execErrMsg (e : String) : String := "Error executing command " ++ e ++ "\n"

/-- The debug message `"Stack Trace:\n{traceback.format_exc()}\n"`; the
traceback text is runtime introspection state and is taken as a parameter. -/
def stackTraceMsg (tb : String) : String := "Stack Trace:\n" ++ tb ++ "\n"

/-- The dispatch half of `get_cmd` (source lines 107-120).  The handlers of
the command table are a parameter: `handlers nm args` is the outcome of
invoking the table's handler for `nm` (each handler closes over the session
state).  A handler exception is logged to the debug stream when debug mode is
on and re-raised (`exc := some e`); an unknown command gets a `?`-framed
error and a debug note. -/
def get_cmd (handlers : String → List String → Outcome) (debug : Bool)
    (tb : String) (command : String) : Outcome :=
  match parse_line command with
  | none => noOutcome
  | some (nm, args) =>
    let r := has_arg_error_result nm args.length
    if r.1 then { noOutcome with frames := r.2 }
    else if commandNames.contains nm then
      let o := handlers nm args
      match o.exc with
      | some e =>
        { o with debugs := o.debugs ++ (if debug then [execErrMsg e, stackTraceMsg tb] else []),
                 exc := some e }
      | none => o
    else
      { frames := [.err "Unknown command"],
        debugs := if debug then ["Unknown command: " ++ nm ++ "\n"] else [],
        plays := [], exc := none }

/-! ### Legality and capture detection (source lines 282-354) -/

/-- `capture_detection` (source lines 282-301): snapshot the empty points,
play the move on a copy, snapshot again, drop the first occurrence of `point`
from the before-list (`list.remove`, which raises `ValueError` when `point`
is absent), and report a capture exactly when the two lists differ. -/
def capture_detection (bd : Board) (point color : Nat) : Except String Bool :=
  let empty_points_original := bd.get_empty_points
  let monitor_points_after := bd.play_move_empties point color
  if point ∈ empty_points_original then
    .ok (!(empty_points_original.erase point == monitor_points_after))
  else .error ("list.remove(x): x not in list")

/-- The shared enumeration loop of `gogui_rules_legal_moves_cmd` (source
lines 305-314) and `legal_move_helper` (source lines 330-336), which contain
this loop verbatim twice: keep the empty points that are legal for `color`
and do not trigger a capture; an exception from `capture_detection`
propagates. -/
def legal_points_loop (bd : Board) (color : Nat) : List Nat → Except String (List Nat)
  | [] => .ok []
  | p :: rest =>
    if bd.is_legal p color then
      match capture_detection bd p color with
      | .error e => .error e
      | .ok cap =>
        match legal_points_loop bd color rest with
        | .error e => .error e
        | .ok tail => .ok (if cap then tail else p :: tail)
    else legal_points_loop bd color rest

/-- `legal_move_helper` (source lines 325-337). -/
def legal_move_helper (bd : Board) : Except String (List Nat) :=
  legal_points_loop bd bd.current_player bd.get_empty_points

/-- The point list computed by `gogui_rules_legal_moves_cmd` before
formatting (source lines 305-314, the same loop as `legal_move_helper`). -/
def gogui_rules_legal_moves_points (bd : Board) : Except String (List Nat) :=
  legal_points_loop bd bd.current_player bd.get_empty_points

/-- Sort key of `return_list.sort(key=lambda x: x[0])`: the first character.
The formatted strings are always non-empty, so the default never surfaces. -/
def headCh (s : String) : Char := s.data.headD 'A'

/-- The key order used by the sort in `gogui_rules_legal_moves_cmd`. -/
def keyLe (a b : String) : Prop := headCh a ≤ headCh b

instance : DecidableRel keyLe := fun a b => inferInstanceAs (Decidable (headCh a ≤ headCh b))

instance : IsTotal String keyLe := ⟨fun a b => le_total (headCh a) (headCh b)⟩

instance : IsTrans String keyLe := ⟨fun _ _ _ h1 h2 => le_trans h1 h2⟩

/-- Python's `list.sort(key=lambda x: x[0])` is a stable sort by the first
character; `List.insertionSort` with `keyLe` is stable and produces the same
(unique) stable order. -/
def sortByFirstChar (l : List String) : List String := l.insertionSort keyLe

/-- `gogui_rules_legal_moves_cmd` (source lines 303-323): enumerate, format
each point (`format_point(point_to_coord(p, size))`, whose `ValueError`
would propagate), sort by first character, respond with the space-joined
list. -/
def gogui_rules_legal_moves_cmd (bd : Board) : Except String Outcome :=
  match gogui_rules_legal_moves_points bd with
  | .error e => .error e
  | .ok pts =>
    match pts.mapM (fun p => format_point (point_to_coord (some p) bd.size)) with
    | .error e => .error e
    | .ok formatted =>
      .ok ⟨[.success (String.intercalate " " (sortByFirstChar formatted))], [], [], none⟩

/-! ### play_cmd and its checkers (source lines 339-410) -/

/-- `color_checker` (source lines 339-342). -/
def color_checker (bd : Board) (input_color : Nat) : Bool :=
  input_color == bd.current_player

/-- `coordinate_checker` (source lines 344-349): reads `point[0]` and
`point[1]` (an `IndexError` for tokens shorter than two characters), then
requires the second character to be a digit.  The `color` argument is unused
in the source. -/
def coordinate_checker (_color point : String) : Except String Bool :=
  match point.data.head? with
  | none => .error "string index out of range"
  | some _row =>
    match point.data.get? 1 with
    | none => .error "string index out of range"
    | some column => .ok column.isDigit

/-- `occupied_checker` (source lines 351-354): `get_color(point) != 0` means
occupied. -/
def occupied_checker (bd : Board) (point : Nat) : Bool :=
  bd.get_color point == 0

/-- The `illegal move` response text of `play_cmd`
(`'illegal move: "{} {}" <reason>'.format(args[0], args[1])`). -/
def illegalMsg (a0 a1 reason : String) : String :=
  "illegal move: \"" ++ a0 ++ " " ++ a1 ++ "\" " ++ reason

/-- An outcome holding a single successful response and nothing else. -/
def respondOnly (payload : String) : Outcome := ⟨[.success payload], [], [], none⟩

/-- The body of `play_cmd`'s `try` block (source lines 360-408);
`.error e` models an exception reaching the `except` clause. -/
def play_cmd_run (debug : Bool) (bd : Board) (args : List String) : Except String Outcome :=
  match args.get? 0, args.get? 1 with
  | some a0, some a1 =>
    match color_to_int (pyLower a0) with
    | .error e => .error e
    | .ok color =>
      match color_checker bd color with
      | false => .ok (respondOnly (illegalMsg a0 a1 "wrong color"))
      | true =>
        match coordinate_checker a0 a1 with
        | .error e => .error e
        | .ok false => .ok (respondOnly (illegalMsg a0 a1 "wrong coordinate"))
        | .ok true =>
          match move_to_coord a1 bd.size with
          | .error e => .error e
          | .ok (.rc row col) =>
            match occupied_checker bd (coord_to_point row col bd.size) with
            | false => .ok (respondOnly (illegalMsg a0 a1 "occupied"))
            | true =>
              match bd.check_suicide (coord_to_point row col bd.size) color with
              | true => .ok (respondOnly (illegalMsg a0 a1 "suicide"))
              | false =>
                match capture_detection bd (coord_to_point row col bd.size) bd.current_player with
                | .error e => .error e
                | .ok true => .ok (respondOnly (illegalMsg a0 a1 "capture"))
                | .ok false =>
                  .ok ⟨[.success ""],
                       if bd.play_move_applied (coord_to_point row col bd.size) color then []
                       else if debug then
                         ["Move: " ++ a1 ++ "\nBoard:\n" ++
                           bd.play_move_render (coord_to_point row col bd.size) color ++ "\n"]
                       else [],
                       [(coord_to_point row col bd.size, color)], none⟩
          | .ok _ => .ok (respondOnly (illegalMsg a0 a1 "wrong coordinate"))
  | _, _ => .error "list index out of range"

/-- `play_cmd` (source lines 356-410): the `try` body, with the `except`
clause converting any exception into a `"Error: {str(e)}"` response written
with the success frame. -/
def play_cmd (debug : Bool) (bd : Board) (args : List String) : Outcome :=
  match play_cmd_run debug bd args with
  | .ok o => o
  | .error e => respondOnly ("Error: " ++ e)

/-! ### Concrete collaborator instances used by witnesses -/

/-- The 25 points of an empty 5×5 board with stride 6, row by row. -/
def sampleEmpties : List Nat :=
  [7, 8, 9, 10, 11, 13, 14, 15, 16, 17, 19, 20, 21, 22, 23,
   25, 26, 27, 28, 29, 31, 32, 33, 34, 35]

/-- An empty 5×5 board, Black to move; playing a stone removes exactly the
played point from the empty enumeration (no capture anywhere). -/
def sampleBoard : Board where
  size := 5
  current_player := 1
  get_color := fun p => if p ∈ sampleEmpties then 0 else 3
  get_empty_points := sampleEmpties
  is_legal := fun _ _ => true
  check_suicide := fun _ _ => false
  play_move_applied := fun _ _ => true
  play_move_empties := fun p _ => sampleEmpties.erase p
  play_move_render := fun _ _ => ""

theorem sampleBoard_wf : sampleBoard.WF := by
  intro p
  by_cases h : p ∈ sampleEmpties <;> simp [sampleBoard, Board.WF, EMPTY, h]

/-- All case variants of a character list (ASCII): the strings that lowercase
to the same string. -/
def caseVariants : List Char → List (List Char)
  | [] => [[]]
  | c :: rest =>
    (caseVariants rest).flatMap (fun t =>
      if c.toLower = c.toUpper then [c :: t] else [c.toLower :: t, c.toUpper :: t])

/-- The case variants of the transport text of coordinate `(row, col)`:
`<column letter><row digits>`. -/
def coordVariantStrings (row col : Nat) : List String :=
  (caseVariants (column_letters.getD (col - 1) 'A' :: (Nat.repr row).data)).map String.mk

/-- The transport coordinate strings valid for a given board size whose row
and column stay below the formatter's `MAXSIZE` bound: every case variant of
`PASS` and of `<column letter><row>` for `1 ≤ row, col ≤ min size 24`. -/
def validCoordStrings (size : Nat) : List String :=
  (caseVariants "pass".data).map String.mk ++
  ((List.range' 1 size).flatMap fun row =>
    (List.range' 1 size).flatMap fun col =>
      if row ≤ 24 ∧ col ≤ 24 then coordVariantStrings row col else [])

/-- The composition `format_point(move_to_coord(c, size))` of spec §8's
round-trip property; a parse result of `False` cannot be fed to
`format_point` and is reported as `.error "invalid"`. -/
def codecRoundTrip (c : String) (size : Nat) : Except String String :=
  match move_to_coord c size with
  | .error e => .error e
  | .ok .invalid => .error "invalid"
  | .ok .passMv => format_point none
  | .ok (.rc row col) => format_point (some (row, col))

/-- A collaborator whose post-move empty enumeration is a permutation (but
not an order-preserving copy) of the pre-move enumeration minus the played
point: `get_empty_points` is `[1, 2, 3]` and playing any move reports
`[3, 2]` as the remaining empties. -/
def permBoard : Board where
  size := 5
  current_player := 1
  get_color := fun p => if p = 1 ∨ p = 2 ∨ p = 3 then 0 else 3
  get_empty_points := [1, 2, 3]
  is_legal := fun _ _ => true
  check_suicide := fun _ _ => false
  play_move_applied := fun _ _ => true
  play_move_empties := fun _ _ => [3, 2]
  play_move_render := fun _ _ => ""

/-! ## Claims -/

/-- **C7.** For every invocation of `play_cmd` whose color token names a
color different from the board collaborator's current side to move, the
response is the `wrong color` illegal-move message and the board state is
left completely unchanged (no `play_move` call is made on the live board,
the only board-mutating operation `play_cmd` ever performs). -/
theorem play_cmd_wrong_color (debug : Bool) (bd : Board) (a0 a1 : String) (c : Nat)
    (hc : color_to_int (pyLower a0) = .ok c) (hne : c ≠ bd.current_player) :
    play_cmd debug bd [a0, a1] = respondOnly (illegalMsg a0 a1 "wrong color") := by
  have hb : (c == bd.current_player) = false := beq_eq_false_iff_ne.mpr hne
  unfold play_cmd play_cmd_run
  simp [hc, color_checker, hb]

theorem play_cmd_wrong_color_witness :
    play_cmd false sampleBoard ["w", "a1"] =
      respondOnly "illegal move: \"w a1\" wrong color" :=
  play_cmd_wrong_color false sampleBoard "w" "a1" 2 rfl (by decide)

/-- **C10.** Every response `play_cmd` emits — the five illegal-move reason
messages, the `Error: <message>` text of the exception path, and the empty
success payload — is a single frame written with the success framing
`= <payload>\n\n`; `play_cmd` never emits an error-framed (`? `) response. -/
theorem play_cmd_success_framed (debug : Bool) (bd : Board) (args : List String) :
    ∃ p, (play_cmd debug bd args).frames = [Frame.success p] ∧
      (play_cmd debug bd args).frames.map Frame.render = ["= " ++ p ++ "\n\n"] := by
  suffices h : ∃ p, (play_cmd debug bd args).frames = [Frame.success p] by
    obtain ⟨p, hp⟩ := h
    exact ⟨p, hp, by rw [hp]; rfl⟩
  unfold play_cmd
  rcases hrun : play_cmd_run debug bd args with e | o
  · exact ⟨"Error: " ++ e, rfl⟩
  · show ∃ p, o.frames = [Frame.success p]
    unfold play_cmd_run at hrun
    repeat' split at hrun
    all_goals cases hrun
    all_goals exact ⟨_, rfl⟩

/-- **C2.** For every command line whose command name is in the command
table, an exception raised by the invoked handler is logged to the
diagnostic stream (exactly when debug mode is enabled) together with a stack
trace, and is then re-raised to the caller of the command loop; the
handler's protocol frames are passed through untouched, so no handler
failure is converted into a protocol response. -/
theorem get_cmd_reraises (handlers : String → List String → Outcome) (debug : Bool)
    (tb line nm : String) (args : List String) (e : String)
    (h1 : parse_line line = some (nm, args))
    (h2 : has_arg_error nm args.length = false)
    (h3 : commandNames.contains nm = true)
    (h4 : (handlers nm args).exc = some e) :
    get_cmd handlers debug tb line =
      { handlers nm args with
        debugs := (handlers nm args).debugs ++
          (if debug then [execErrMsg e, stackTraceMsg tb] else []),
        exc := some e } ∧
    (get_cmd handlers debug tb line).frames = (handlers nm args).frames := by
  have hmain : get_cmd handlers debug tb line =
      { handlers nm args with
        debugs := (handlers nm args).debugs ++
          (if debug then [execErrMsg e, stackTraceMsg tb] else []),
        exc := some e } := by
    unfold get_cmd
    rw [h1]
    simp only [has_arg_error] at h2
    simp only [h2, Bool.false_eq_true, if_false, h3, if_true]
    rw [h4]
  exact ⟨hmain, by rw [hmain]⟩

theorem get_cmd_reraises_witness :
    get_cmd (fun _ _ => ⟨[Frame.success "partial"], ["note"], [], some "boom"⟩)
        true "trace text" "play b a1" =
      ⟨[Frame.success "partial"],
       ["note", "Error executing command boom\n", "Stack Trace:\ntrace text\n"],
       [], some "boom"⟩ :=
  (get_cmd_reraises (fun _ _ => ⟨[Frame.success "partial"], ["note"], [], some "boom"⟩)
    true "trace text" "play b a1" "play" ["b", "a1"] "boom" rfl rfl rfl rfl).1

/-- **C6 (amended).** Exactly the command names `boardsize`, `komi`,
`known_command`, `genmove`, `legal_moves` (arity 1) and `play` (arity 2) are
arity-checked: `has_arg_error` reports a mismatch precisely for those names
with the wrong argument count, and on a mismatch `get_cmd` emits the table's
usage message as an error frame and does not dispatch; every other command
name is never rejected for argument count. -/
theorem arity_check_characterization :
    (∀ cmd n, has_arg_error cmd n = true ↔
      (((cmd = "boardsize" ∨ cmd = "komi" ∨ cmd = "known_command" ∨
         cmd = "genmove" ∨ cmd = "legal_moves") ∧ n ≠ 1) ∨
       (cmd = "play" ∧ n ≠ 2))) ∧
    (∀ handlers debug tb line nm args, parse_line line = some (nm, args) →
      has_arg_error nm args.length = true →
      get_cmd handlers debug tb line =
        ⟨(has_arg_error_result nm args.length).2, [], [], none⟩) := by
  constructor
  · intro cmd n
    unfold has_arg_error has_arg_error_result argmap
    by_cases e1 : cmd = "boardsize"
    · subst e1; simp [List.lookup]; split <;> simp_all <;> omega
    by_cases e2 : cmd = "komi"
    · subst e2; simp [List.lookup, e1]; split <;> simp_all <;> omega
    by_cases e3 : cmd = "known_command"
    · subst e3; simp [List.lookup, e1, e2]; split <;> simp_all <;> omega
    by_cases e4 : cmd = "genmove"
    · subst e4; simp [List.lookup, e1, e2, e3]; split <;> simp_all <;> omega
    by_cases e5 : cmd = "play"
    · subst e5; simp [List.lookup, e1, e2, e3, e4]; split <;> simp_all <;> omega
    by_cases e6 : cmd = "legal_moves"
    · subst e6; simp [List.lookup, e1, e2, e3, e4, e5]; split <;> simp_all <;> omega
    · simp [List.lookup, e1, e2, e3, e4, e5, e6,
        beq_eq_false_iff_ne.mpr e1, beq_eq_false_iff_ne.mpr e2,
        beq_eq_false_iff_ne.mpr e3, beq_eq_false_iff_ne.mpr e4,
        beq_eq_false_iff_ne.mpr e5, beq_eq_false_iff_ne.mpr e6]
  · intro handlers debug tb line nm args h1 h2
    unfold get_cmd
    rw [h1]
    simp only [has_arg_error] at h2
    simp [h2, noOutcome]

/-- The frozen claim C6 fails on the code: `legal_moves`, a name outside the
five listed commands (and outside the command table altogether), is also
arity-checked — the line `legal_moves` is rejected for argument count with a
usage error. -/
theorem arity_check_cex :
    has_arg_error "legal_moves" 0 = true ∧
    ("legal_moves" ∉ ["boardsize", "komi", "known_command", "genmove", "play"]) ∧
    get_cmd (fun _ _ => noOutcome) false "" "legal_moves" =
      ⟨[Frame.err "Usage: legal_moves \x7bw,b\x7d"], [], [], none⟩ := by
  refine ⟨by decide, by decide, ?_⟩
  rfl

theorem arity_check_witness :
    has_arg_error "boardsize" 0 = true ∧
    get_cmd (fun _ _ => noOutcome) false "" "boardsize" =
      ⟨[Frame.err "Usage: boardsize INT"], [], [], none⟩ := by
  constructor
  · exact (arity_check_characterization.1 "boardsize" 0).2 (Or.inl ⟨Or.inl rfl, by decide⟩)
  · exact arity_check_characterization.2 (fun _ _ => noOutcome) false "" "boardsize"
      "boardsize" [] rfl rfl

/-- **C3 (amended).** Called on a currently empty point, `capture_detection`
returns `False` exactly when the *ordered list* of empty points after
hypothetically playing `color` at `point` on a board copy equals the list of
empty points before the move with the first occurrence of `point` removed,
and returns `True` on any other discrepancy (the comparison is
order-sensitive list equality, not set equality); whenever the
collaborator's enumerations are strictly sorted, this coincides with the
claim's set reading.  The check returns only a Boolean and is computed from
the copy's enumeration, so the live board is never mutated. -/
theorem capture_detection_list_diff (bd : Board) (point color : Nat)
    (h : point ∈ bd.get_empty_points) :
    (capture_detection bd point color = .ok false ↔
      bd.play_move_empties point color = bd.get_empty_points.erase point) ∧
    (bd.get_empty_points.Sorted (· < ·) →
      (bd.play_move_empties point color).Sorted (· < ·) →
      (capture_detection bd point color = .ok false ↔
        List.Perm (bd.play_move_empties point color) (bd.get_empty_points.erase point))) := by
  have hbase : capture_detection bd point color = .ok false ↔
      bd.play_move_empties point color = bd.get_empty_points.erase point := by
    unfold capture_detection
    rw [if_pos h]
    constructor
    · intro hok
      have := Except.ok.inj hok
      have heq : (bd.get_empty_points.erase point == bd.play_move_empties point color) = true := by
        cases hb : bd.get_empty_points.erase point == bd.play_move_empties point color
        · rw [hb] at this; simp at this
        · rfl
      exact (beq_iff_eq.mp heq).symm
    · intro heq
      rw [← heq]
      simp
  refine ⟨hbase, fun hs1 hs2 => hbase.trans ⟨fun he => he ▸ List.Perm.refl _, fun hperm => ?_⟩⟩
  haveI : IsAntisymm Nat (· < ·) := ⟨fun a b h1 h2 => absurd h2 (by omega)⟩
  exact List.eq_of_perm_of_sorted hperm hs2 (hs1.sublist (bd.get_empty_points.erase_sublist point))

theorem capture_detection_list_diff_witness :
    capture_detection sampleBoard 7 1 = .ok false :=
  (capture_detection_list_diff sampleBoard 7 1 (by decide)).1.mpr (by decide)

/-- The frozen claim C3 fails on the code: on `permBoard` the set of empty
points after the hypothetical move (`[3, 2]`) equals the set before minus
the played point (`[2, 3]` as a set — the permutation below), so the claim
requires `False`, yet `capture_detection` compares the lists in order and
returns `True`. -/
theorem capture_detection_set_cex :
    capture_detection permBoard 1 2 = .ok true ∧
    List.Perm (permBoard.play_move_empties 1 2) (permBoard.get_empty_points.erase 1) ∧
    (permBoard.play_move_empties 1 2).toFinset =
      permBoard.get_empty_points.toFinset.erase 1 := by
  refine ⟨rfl, ?_, by decide⟩
  decide

/-- **C9 (amended).** For every board size in `2 .. 25`, `move_to_coord`
never raises: it returns the Pass sentinel for (case-insensitive) `pass` and
the invalid result — not an exception — for the column letter `i`, a
non-letter first character, a column beyond the board size, a row part that
is not a Python integer literal, a zero or negative row, and a row beyond
the board size.  (The frozen claim's "any string not of the form
letter-followed-by-digits" is too strong: the row part goes through Python
`int`, which also accepts a sign and underscore separators.) -/
theorem move_to_coord_rejects (s : String) (size : Nat)
    (h1 : 2 ≤ size) (h2 : size ≤ 25) :
    (∃ r, move_to_coord s size = .ok r) ∧
    (pyLower s = "pass" → move_to_coord s size = .ok .passMv) ∧
    (pyLower s ≠ "pass" → (pyLower s).data = [] → move_to_coord s size = .ok .invalid) ∧
    (∀ c rest, pyLower s ≠ "pass" → (pyLower s).data = c :: rest →
      ((c = 'i' ∨ ¬('a' ≤ c ∧ c ≤ 'z') → move_to_coord s size = .ok .invalid) ∧
       (pyIntOfChars rest = none → move_to_coord s size = .ok .invalid) ∧
       (∀ v : Int, pyIntOfChars rest = some v → v < 1 →
         move_to_coord s size = .ok .invalid) ∧
       (∀ v : Int, pyIntOfChars rest = some v → (size : Int) < v →
         move_to_coord s size = .ok .invalid) ∧
       (size < colOf c → move_to_coord s size = .ok .invalid))) := by
  have hsz : ¬¬(2 ≤ size ∧ size ≤ MAXSIZE) := by simp [MAXSIZE]; omega
  unfold move_to_coord
  rw [if_neg hsz]
  by_cases hp : pyLower s = "pass"
  · rw [if_pos hp]
    refine ⟨⟨.passMv, rfl⟩, fun _ => rfl, fun hnp => absurd hp hnp, fun c rest hnp => absurd hp hnp⟩
  · rw [if_neg hp]
    refine ⟨?_, fun hpp => absurd hpp hp, fun _ hnil => by rw [hnil], fun c rest _ hcons => ?_⟩
    · rcases hd : (pyLower s).data with _ | ⟨c, rest⟩
      · exact ⟨.invalid, rfl⟩
      · dsimp only
        by_cases hl : ¬('a' ≤ c ∧ c ≤ 'z') ∨ c = 'i'
        · exact ⟨.invalid, by rw [if_pos hl]⟩
        · rw [if_neg hl]
          rcases hint : pyIntOfChars rest with _ | v
          · exact ⟨.invalid, rfl⟩
          · dsimp only
            by_cases hv : v < 1
            · exact ⟨.invalid, by rw [if_pos hv]⟩
            · rw [if_neg hv]
              by_cases hrange : ¬(colOf c ≤ size ∧ v ≤ (size : Int))
              · exact ⟨.invalid, by rw [if_pos hrange]⟩
              · exact ⟨.rc v.toNat (colOf c), by rw [if_neg hrange]⟩
    · rw [hcons]
      dsimp only
      refine ⟨fun hbad => ?_, fun hnone => ?_, fun v hv hlt => ?_,
        fun v hv hlt => ?_, fun hcol => ?_⟩
      · rw [if_pos (show ¬('a' ≤ c ∧ c ≤ 'z') ∨ c = 'i' by tauto)]
      · by_cases hl : ¬('a' ≤ c ∧ c ≤ 'z') ∨ c = 'i'
        · rw [if_pos hl]
        · rw [if_neg hl, hnone]
      · by_cases hl : ¬('a' ≤ c ∧ c ≤ 'z') ∨ c = 'i'
        · rw [if_pos hl]
        · rw [if_neg hl, hv]; dsimp only
          rw [if_pos hlt]
      · by_cases hl : ¬('a' ≤ c ∧ c ≤ 'z') ∨ c = 'i'
        · rw [if_pos hl]
        · rw [if_neg hl, hv]; dsimp only
          by_cases hv1 : v < 1
          · rw [if_pos hv1]
          · rw [if_neg hv1, if_pos (by push_neg; intro hc2; omega)]
      · by_cases hl : ¬('a' ≤ c ∧ c ≤ 'z') ∨ c = 'i'
        · rw [if_pos hl]
        · rw [if_neg hl]
          rcases hint : pyIntOfChars rest with _ | v
          · rfl
          · dsimp only
            by_cases hv1 : v < 1
            · rw [if_pos hv1]
            · rw [if_neg hv1, if_pos (by push_neg; intro hc2; omega)]

theorem move_to_coord_rejects_witness :
    move_to_coord "i3" 5 = .ok .invalid ∧ move_to_coord "PaSs" 5 = .ok .passMv := by
  constructor
  · exact (((move_to_coord_rejects "i3" 5 (by decide) (by decide)).2.2.2)
      'i' ['3'] (by decide) rfl).1 (Or.inl rfl)
  · exact (move_to_coord_rejects "PaSs" 5 (by decide) (by decide)).2.1 rfl

/-- The frozen claim C9 fails on the code: `a+5` is not of the form
letter-followed-by-digits (its tail `+5` is not all digits), yet
`move_to_coord` accepts it as row 5, column 1 instead of returning the
invalid result, because Python `int("+5")` accepts the sign. -/
theorem move_to_coord_plus_cex :
    move_to_coord "a+5" 5 = .ok (.rc 5 1) ∧
    ¬("a+5".data.drop 1).all Char.isDigit := by
  exact ⟨rfl, by decide⟩

/-- The enumeration loop keeps only legal, capture-free points drawn from
its input list, and never raises when every input point is in the
collaborator's empty enumeration. -/
theorem legal_points_loop_sound (bd : Board) (color : Nat) (l : List Nat)
    (hl : ∀ p ∈ l, p ∈ bd.get_empty_points) :
    ∃ pts, legal_points_loop bd color l = .ok pts ∧
      ∀ p ∈ pts, p ∈ l ∧ bd.is_legal p color = true ∧
        capture_detection bd p color = .ok false := by
  induction l with
  | nil => exact ⟨[], rfl, by simp⟩
  | cons q rest ih =>
    obtain ⟨pts, hpts, hmem⟩ := ih (fun p hp => hl p (List.mem_cons_of_mem q hp))
    have hq : q ∈ bd.get_empty_points := hl q (List.mem_cons_self q rest)
    unfold legal_points_loop
    by_cases hleg : bd.is_legal q color = true
    · rw [if_pos hleg]
      have hcap : capture_detection bd q color =
          .ok (!(bd.get_empty_points.erase q == bd.play_move_empties q color)) := by
        unfold capture_detection
        rw [if_pos hq]
      rw [hcap, hpts]
      rcases hb : (bd.get_empty_points.erase q == bd.play_move_empties q color) with _ | _
      · refine ⟨pts, rfl, fun p hp => ?_⟩
        obtain ⟨h1, h2, h3⟩ := hmem p hp
        exact ⟨List.mem_cons_of_mem q h1, h2, h3⟩
      · refine ⟨q :: pts, rfl, fun p hp => ?_⟩
        rcases List.mem_cons.mp hp with rfl | hp'
        · exact ⟨List.mem_cons_self p rest, hleg, by rw [hcap, hb]; rfl⟩
        · obtain ⟨h1, h2, h3⟩ := hmem p hp'
          exact ⟨List.mem_cons_of_mem q h1, h2, h3⟩
    · rw [if_neg hleg]
      exact ⟨pts, hpts, fun p hp =>
        ⟨List.mem_cons_of_mem q (hmem p hp).1, (hmem p hp).2.1, (hmem p hp).2.2⟩⟩

/-- **C4.** For every coherent board state, the point list computed by
`gogui_rules_legal_moves` (and, identically, by `legal_move_helper`)
contains no occupied point, no point the board collaborator reports as
illegal for the side to move, and no point for which `capture_detection`
returns `True`. -/
theorem legal_moves_sound (bd : Board) (h : bd.WF) :
    ∃ pts, legal_move_helper bd = .ok pts ∧
      gogui_rules_legal_moves_points bd = .ok pts ∧
      ∀ p ∈ pts, bd.get_color p = EMPTY ∧
        bd.is_legal p bd.current_player = true ∧
        capture_detection bd p bd.current_player = .ok false := by
  obtain ⟨pts, h1, h2⟩ :=
    legal_points_loop_sound bd bd.current_player bd.get_empty_points (fun _ hp => hp)
  exact ⟨pts, h1, h1, fun p hp =>
    ⟨(h p).mpr ((h2 p hp).1), (h2 p hp).2.1, (h2 p hp).2.2⟩⟩

theorem legal_moves_sound_witness :
    sampleBoard.WF ∧
    (∃ pts, legal_move_helper sampleBoard = .ok pts ∧
      gogui_rules_legal_moves_points sampleBoard = .ok pts ∧
      ∀ p ∈ pts, sampleBoard.get_color p = EMPTY ∧
        sampleBoard.is_legal p sampleBoard.current_player = true ∧
        capture_detection sampleBoard p sampleBoard.current_player = .ok false) ∧
    legal_move_helper sampleBoard = .ok sampleEmpties :=
  ⟨sampleBoard_wf, legal_moves_sound sampleBoard sampleBoard_wf, rfl⟩

/-- Inserting into a list affects a first-character filter only by
prepending the inserted element when its key matches: `orderedInsert` with
`keyLe` places an element before every element of an equal or larger key. -/
theorem filter_orderedInsert (k : Char) (x : String) (l : List String) :
    (l.orderedInsert keyLe x).filter (fun s => headCh s == k) =
      if headCh x = k then x :: l.filter (fun s => headCh s == k)
      else l.filter (fun s => headCh s == k) := by
  induction l with
  | nil =>
    by_cases hxk : headCh x = k <;>
      simp [List.orderedInsert, List.filter, hxk, beq_eq_false_iff_ne.mpr]
  | cons y ys ih =>
    simp only [List.orderedInsert]
    by_cases hxy : keyLe x y
    · rw [if_pos hxy]
      by_cases hxk : headCh x = k <;> by_cases hyk : headCh y = k <;>
        simp [List.filter_cons, hxk, hyk]
    · rw [if_neg hxy]
      by_cases hyk : headCh y = k
      · have hxk : ¬ headCh x = k := by
          intro hx
          exact hxy (le_of_eq (by rw [hx, hyk]))
        simp [List.filter_cons, hyk, hxk, ih]
      · by_cases hxk : headCh x = k <;> simp [List.filter_cons, hyk, hxk, ih]

/-- The stable sort by first character preserves the relative order of
equal-key elements: filtering by any key commutes with the sort. -/
theorem filter_sortByFirstChar (k : Char) (l : List String) :
    (sortByFirstChar l).filter (fun s => headCh s == k) =
      l.filter (fun s => headCh s == k) := by
  induction l with
  | nil => rfl
  | cons x xs ih =>
    show (((xs.insertionSort keyLe)).orderedInsert keyLe x).filter
        (fun s => headCh s == k) = _
    rw [filter_orderedInsert]
    by_cases hxk : headCh x = k <;> simp [List.filter_cons, hxk]
    · exact ih
    · exact ih

/-- **C5.** The response of `gogui_rules_legal_moves` is the space-joined
list of formatted coordinate strings sorted by their first character only:
the emitted list is a permutation of the formatted list, pairwise ordered by
first character, and for every letter the same-letter strings keep the
stable order the underlying empty-point enumeration produced (not full
alphanumeric coordinate order). -/
theorem gogui_response_sorted (bd : Board) (pts : List Nat) (fm : List String)
    (h1 : gogui_rules_legal_moves_points bd = .ok pts)
    (h2 : pts.mapM (fun p => format_point (point_to_coord (some p) bd.size)) = .ok fm) :
    gogui_rules_legal_moves_cmd bd =
      .ok ⟨[.success (String.intercalate " " (sortByFirstChar fm))], [], [], none⟩ ∧
    List.Perm (sortByFirstChar fm) fm ∧
    (sortByFirstChar fm).Sorted keyLe ∧
    (∀ k, (sortByFirstChar fm).filter (fun s => headCh s == k) =
      fm.filter (fun s => headCh s == k)) := by
  refine ⟨?_, List.perm_insertionSort keyLe fm, List.sorted_insertionSort keyLe fm,
    fun k => filter_sortByFirstChar k fm⟩
  unfold gogui_rules_legal_moves_cmd
  rw [h1]
  dsimp only
  rw [h2]

/-- The formatted coordinates of `sampleBoard`'s 25 empty points, in the
row-major order of the enumeration. -/
def sampleFormatted : List String :=
  ["A1", "B1", "C1", "D1", "E1", "A2", "B2", "C2", "D2", "E2",
   "A3", "B3", "C3", "D3", "E3", "A4", "B4", "C4", "D4", "E4",
   "A5", "B5", "C5", "D5", "E5"]

theorem gogui_response_sorted_witness :
    gogui_rules_legal_moves_cmd sampleBoard =
      .ok ⟨[Frame.success
        "A1 A2 A3 A4 A5 B1 B2 B3 B4 B5 C1 C2 C3 C4 C5 D1 D2 D3 D4 D5 E1 E2 E3 E4 E5"],
        [], [], none⟩ :=
  (gogui_response_sorted sampleBoard sampleEmpties sampleFormatted rfl rfl).1

/-- With the board size inside the codec's range, `move_to_coord` never
raises: every outcome is an `ok` result. -/
theorem move_to_coord_total (s : String) (size : Nat)
    (h1 : 2 ≤ size) (h2 : size ≤ 25) :
    ∃ r, move_to_coord s size = .ok r := by
  unfold move_to_coord
  rw [if_neg (show ¬¬(2 ≤ size ∧ size ≤ MAXSIZE) by simp [MAXSIZE]; omega)]
  by_cases hp : pyLower s = "pass"
  · rw [if_pos hp]; exact ⟨.passMv, rfl⟩
  · rw [if_neg hp]
    rcases hd : (pyLower s).data with _ | ⟨c, rest⟩
    · exact ⟨.invalid, rfl⟩
    · dsimp only
      by_cases hl : ¬('a' ≤ c ∧ c ≤ 'z') ∨ c = 'i'
      · exact ⟨.invalid, by rw [if_pos hl]⟩
      · rw [if_neg hl]
        rcases hint : pyIntOfChars rest with _ | v
        · exact ⟨.invalid, rfl⟩
        · dsimp only
          by_cases hv : v < 1
          · exact ⟨.invalid, by rw [if_pos hv]⟩
          · rw [if_neg hv]
            by_cases hrange : ¬(colOf c ≤ size ∧ v ≤ (size : Int))
            · exact ⟨.invalid, by rw [if_pos hrange]⟩
            · exact ⟨.rc v.toNat (colOf c), by rw [if_neg hrange]⟩

/-- `coordinate_checker` on a move token with at least two characters
returns whether the second character is a digit. -/
theorem coordinate_checker_eval (a0 a1 : String) (ch : Char)
    (h : a1.data.get? 1 = some ch) :
    coordinate_checker a0 a1 = .ok ch.isDigit := by
  unfold coordinate_checker
  rcases hd : a1.data with _ | ⟨x, _ | ⟨y, rest⟩⟩
  · rw [hd] at h; cases h
  · rw [hd] at h; cases h
  · rw [hd] at h
    simp only [List.get?] at h
    cases h
    rfl

/-- When `play_cmd` reaches `play_move`, every one of the six checks has
passed, and exactly one `play_move` call is made. -/
theorem play_cmd_plays_only_when_checked (debug : Bool) (bd : Board) (args : List String)
    (hne : (play_cmd debug bd args).plays ≠ []) :
    ∃ a0 a1 c row col,
      args.get? 0 = some a0 ∧ args.get? 1 = some a1 ∧
      color_to_int (pyLower a0) = .ok c ∧
      color_checker bd c = true ∧
      coordinate_checker a0 a1 = .ok true ∧
      move_to_coord a1 bd.size = .ok (.rc row col) ∧
      occupied_checker bd (coord_to_point row col bd.size) = true ∧
      bd.check_suicide (coord_to_point row col bd.size) c = false ∧
      capture_detection bd (coord_to_point row col bd.size) bd.current_player = .ok false ∧
      (play_cmd debug bd args).plays = [(coord_to_point row col bd.size, c)] := by
  revert hne
  unfold play_cmd
  rcases hrun : play_cmd_run debug bd args with e | o
  · intro hne; exact absurd rfl hne
  · intro hne
    unfold play_cmd_run at hrun
    split at hrun
    case h_2 => cases hrun
    case h_1 a0 a1 heq0 heq1 =>
      split at hrun
      case h_1 => cases hrun
      case h_2 c hcint =>
        split at hrun
        case h_1 => cases hrun; exact absurd rfl hne
        case h_2 hcol =>
          split at hrun
          case h_1 => cases hrun
          case h_2 => cases hrun; exact absurd rfl hne
          case h_3 hcc =>
            split at hrun
            case h_1 => cases hrun
            case h_3 => cases hrun; exact absurd rfl hne
            case h_2 row col hmtc =>
              split at hrun
              case h_1 => cases hrun; exact absurd rfl hne
              case h_2 hocc =>
                split at hrun
                case h_1 => cases hrun; exact absurd rfl hne
                case h_2 hsui =>
                  split at hrun
                  case h_1 => cases hrun
                  case h_2 => cases hrun; exact absurd rfl hne
                  case h_3 hcap =>
                    cases hrun
                    exact ⟨a0, a1, c, row, col, heq0, heq1, hcint, hcol, hcc, hmtc,
                      hocc, hsui, hcap, rfl⟩

/-- **C1 (amended).** For every invocation of `play_cmd` with arguments
`[color_token, move_token]` such that the color token names a color, the
move token has at least two characters, the board size is within the
codec's `2 .. 25` range, and the collaborator is coherent, the six
validation stages run in the order wrong-color, syntactic-coordinate,
coordinate-decode, occupied, suicide, capture; the first failing stage
responds with exactly `illegal move: "<color> <move>" <reason>` and makes no
`play_move` call, the capture stage never raises, and `play_move` is invoked
(exactly once) only when all six checks pass.  (Without the added
assumptions the handler's `except` clause responds `Error: <message>`
instead of an illegal-move message — see the counterexample.) -/
theorem play_cmd_pipeline (debug : Bool) (bd : Board) (a0 a1 : String) (c : Nat) (ch : Char)
    (hc : color_to_int (pyLower a0) = .ok c)
    (hch : a1.data.get? 1 = some ch)
    (hs1 : 2 ≤ bd.size) (hs2 : bd.size ≤ 25)
    (hwf : bd.WF) :
    (c ≠ bd.current_player →
      play_cmd debug bd [a0, a1] = respondOnly (illegalMsg a0 a1 "wrong color")) ∧
    (c = bd.current_player → ch.isDigit = false →
      play_cmd debug bd [a0, a1] = respondOnly (illegalMsg a0 a1 "wrong coordinate")) ∧
    (c = bd.current_player → ch.isDigit = true →
      (move_to_coord a1 bd.size = .ok .invalid ∨ move_to_coord a1 bd.size = .ok .passMv) →
      play_cmd debug bd [a0, a1] = respondOnly (illegalMsg a0 a1 "wrong coordinate")) ∧
    (∀ row col, c = bd.current_player → ch.isDigit = true →
      move_to_coord a1 bd.size = .ok (.rc row col) →
      ((bd.get_color (coord_to_point row col bd.size) ≠ EMPTY →
          play_cmd debug bd [a0, a1] = respondOnly (illegalMsg a0 a1 "occupied")) ∧
       (bd.get_color (coord_to_point row col bd.size) = EMPTY →
          bd.check_suicide (coord_to_point row col bd.size) c = true →
          play_cmd debug bd [a0, a1] = respondOnly (illegalMsg a0 a1 "suicide")) ∧
       (bd.get_color (coord_to_point row col bd.size) = EMPTY →
          bd.check_suicide (coord_to_point row col bd.size) c = false →
          capture_detection bd (coord_to_point row col bd.size) bd.current_player = .ok true →
          play_cmd debug bd [a0, a1] = respondOnly (illegalMsg a0 a1 "capture")) ∧
       (bd.get_color (coord_to_point row col bd.size) = EMPTY →
          bd.check_suicide (coord_to_point row col bd.size) c = false →
          capture_detection bd (coord_to_point row col bd.size) bd.current_player = .ok false →
          (play_cmd debug bd [a0, a1]).frames = [Frame.success ""] ∧
          (play_cmd debug bd [a0, a1]).plays = [(coord_to_point row col bd.size, c)]))) ∧
    (∃ pr, move_to_coord a1 bd.size = .ok pr) ∧
    (∀ row col, move_to_coord a1 bd.size = .ok (.rc row col) →
      bd.get_color (coord_to_point row col bd.size) = EMPTY →
      ∃ b, capture_detection bd (coord_to_point row col bd.size) bd.current_player = .ok b) ∧
    ((play_cmd debug bd [a0, a1]).plays ≠ [] →
      ∃ row col, c = bd.current_player ∧ ch.isDigit = true ∧
        move_to_coord a1 bd.size = .ok (.rc row col) ∧
        bd.get_color (coord_to_point row col bd.size) = EMPTY ∧
        bd.check_suicide (coord_to_point row col bd.size) c = false ∧
        capture_detection bd (coord_to_point row col bd.size) bd.current_player = .ok false ∧
        (play_cmd debug bd [a0, a1]).plays = [(coord_to_point row col bd.size, c)]) := by
  have hcc : coordinate_checker a0 a1 = .ok ch.isDigit := coordinate_checker_eval a0 a1 ch hch
  refine ⟨?_, ?_, ?_, ?_, move_to_coord_total a1 bd.size hs1 hs2, ?_, ?_⟩
  · intro hne
    have hb : (c == bd.current_player) = false := beq_eq_false_iff_ne.mpr hne
    unfold play_cmd play_cmd_run
    simp [hc, color_checker, hb, hcc]
  · intro hcp hdig
    have hb : (c == bd.current_player) = true := beq_iff_eq.mpr hcp
    unfold play_cmd play_cmd_run
    simp [hc, color_checker, hb, hcc, hdig]
  · intro hcp hdig hm
    have hb : (c == bd.current_player) = true := beq_iff_eq.mpr hcp
    unfold play_cmd play_cmd_run
    rcases hm with hm | hm <;> simp [hc, color_checker, hb, hcc, hdig, hm]
  · intro row col hcp hdig hm
    have hb : (c == bd.current_player) = true := beq_iff_eq.mpr hcp
    refine ⟨fun hocc => ?_, fun hocc hsui => ?_, fun hocc hsui hcap => ?_,
      fun hocc hsui hcap => ?_⟩
    · have ho : (bd.get_color (coord_to_point row col bd.size) == 0) = false :=
        beq_eq_false_iff_ne.mpr hocc
      unfold play_cmd play_cmd_run
      simp [hc, color_checker, hb, hcc, hdig, hm, occupied_checker, ho]
    · have ho : (bd.get_color (coord_to_point row col bd.size) == 0) = true :=
        beq_iff_eq.mpr hocc
      unfold play_cmd play_cmd_run
      simp [hc, color_checker, hb, hcc, hdig, hm, occupied_checker, ho, hsui]
    · have ho : (bd.get_color (coord_to_point row col bd.size) == 0) = true :=
        beq_iff_eq.mpr hocc
      unfold play_cmd play_cmd_run
      simp [hc, color_checker, hb, hcc, hdig, hm, occupied_checker, ho, hsui, hcap]
    · have ho : (bd.get_color (coord_to_point row col bd.size) == 0) = true :=
        beq_iff_eq.mpr hocc
      unfold play_cmd play_cmd_run
      simp [hc, color_checker, hb, hcc, hdig, hm, occupied_checker, ho, hsui, hcap]
  · intro row col _ hempty
    refine ⟨!(bd.get_empty_points.erase (coord_to_point row col bd.size) ==
        bd.play_move_empties (coord_to_point row col bd.size) bd.current_player), ?_⟩
    unfold capture_detection
    rw [if_pos ((hwf (coord_to_point row col bd.size)).mp hempty)]
  · intro hne
    obtain ⟨b0, b1, c2, row, col, he0, he1, hcint, hcol, hcc2, hmtc, hocc, hsui, hcap, hplays⟩ :=
      play_cmd_plays_only_when_checked debug bd [a0, a1] hne
    cases he0
    cases he1
    have hc2 : c2 = c := by rw [hcint] at hc; exact (Except.ok.inj hc)
    subst hc2
    refine ⟨row, col, ?_, ?_, hmtc, ?_, hsui, hcap, hplays⟩
    · exact beq_iff_eq.mp hcol
    · rw [hcc2] at hcc; exact (Except.ok.inj hcc).symm
    · exact beq_iff_eq.mp hocc

theorem play_cmd_pipeline_witness :
    (play_cmd false sampleBoard ["b", "a1"]).frames = [Frame.success ""] ∧
    (play_cmd false sampleBoard ["b", "a1"]).plays = [(7, 1)] := by
  have h := play_cmd_pipeline false sampleBoard "b" "a1" 1 '1' rfl rfl
    (by decide) (by decide) sampleBoard_wf
  have h4 := (h.2.2.2.1 1 1 rfl (by decide) (by decide)).2.2.2
  exact h4 (by decide) (by decide) (by decide)

/-- The frozen claim C1 fails on the code: with a correct color token and
the one-character move token `a` — which is not a letter+digit pair, so the
claim requires the `wrong coordinate` illegal-move message — the syntactic
stage raises `IndexError` reading `point[1]`, and the handler responds
`Error: string index out of range` instead. -/
theorem play_cmd_pipeline_cex :
    play_cmd false sampleBoard ["b", "a"] =
      respondOnly "Error: string index out of range" ∧
    respondOnly "Error: string index out of range" ≠
      respondOnly (illegalMsg "b" "a" "wrong coordinate") := by
  exact ⟨rfl, by decide⟩

set_option maxRecDepth 10000 in
set_option maxHeartbeats 8000000 in
/-- Exhaustive check of the codec round trip over every board size in
`2 .. 25` and every valid coordinate string whose row and column respect the
formatter's bound. -/
theorem codec_roundtrip_enum : ∀ s ∈ List.range' 2 24,
    (∀ x ∈ (caseVariants "pass".data).map String.mk,
      codecRoundTrip x s = .ok (pyUpper x)) ∧
    (∀ row ∈ List.range' 1 s, ∀ col ∈ List.range' 1 s, row ≤ 24 → col ≤ 24 →
      ∀ x ∈ coordVariantStrings row col, codecRoundTrip x s = .ok (pyUpper x)) := by
  decide

/-- **C8 (amended).** For every transport coordinate string `c` valid for a
given board size whose row and column are at most 24,
`format_point(move_to_coord(c, size))` equals `c` converted to uppercase:
the parser accepts lowercase (indeed, any case variant) while the formatter
always emits uppercase.  (At row 25 or column 25 — reachable only on a
size-25 board — the formatter's `0 <= row,col < 25` bound raises instead;
see the counterexample.) -/
theorem codec_roundtrip (size : Nat) (c : String)
    (h1 : 2 ≤ size) (h2 : size ≤ 25) (hc : c ∈ validCoordStrings size) :
    codecRoundTrip c size = .ok (pyUpper c) := by
  have hs : size ∈ List.range' 2 24 := by
    rw [List.mem_range'_1]
    omega
  have hall := codec_roundtrip_enum size hs
  rcases List.mem_append.mp hc with hp | hcc
  · exact hall.1 c hp
  · obtain ⟨row, hrow, hx⟩ := List.mem_flatMap.mp hcc
    obtain ⟨col, hcol, hx2⟩ := List.mem_flatMap.mp hx
    by_cases hb : row ≤ 24 ∧ col ≤ 24
    · rw [if_pos hb] at hx2
      exact hall.2 row hrow col hcol hb.1 hb.2 c hx2
    · rw [if_neg hb] at hx2
      cases hx2

theorem codec_roundtrip_witness :
    codecRoundTrip "b3" 5 = .ok "B3" ∧ codecRoundTrip "pass" 5 = .ok "PASS" := by
  refine ⟨codec_roundtrip 5 "b3" (by decide) (by decide) (by decide), ?_⟩
  exact codec_roundtrip 5 "pass" (by decide) (by decide) (by decide)

/-- The frozen claim C8 fails on the code: on a size-25 board the string
`a25` is a valid transport coordinate (`move_to_coord` accepts it as row 25,
column 1), yet `format_point` raises `ValueError` on row 25 because of its
`0 <= row < 25` bound, so the round trip does not produce `A25`. -/
theorem codec_roundtrip_cex :
    move_to_coord "a25" 25 = .ok (.rc 25 1) ∧
    codecRoundTrip "a25" 25 = .error "" ∧
    pyUpper "a25" = "A25" := by
  exact ⟨rfl, rfl, rfl⟩

end Gtp
